import Mathlib

/-!
Verification of the `backtesting` repository: shallow embedding of the
signal generators (`src/strategies/*`, `src/old code/strategies/*`), the
per-bar signal loop of the execution engine (`src/backtester.py`,
`CustomStrategy.next`) and the batch error boundary
(`BacktestEngine.run`), with theorems settling the specified behaviour.

Prices are modelled as rationals; a pandas `NaN` cell is modelled as
`Option.none`, and comparisons against `none` are `false`, matching
pandas semantics where every comparison with `NaN` yields `False`.
-/

namespace Backtesting

/-! ## Option-valued comparisons (pandas NaN semantics) -/

/-- `a < b` on possibly-NaN values: `false` when either side is NaN. -/
def oLt (a b : Option ℚ) : Bool :=
  match a, b with
  | some x, some y => decide (x < y)
  | _, _ => false

/-- `a ≤ b` on possibly-NaN values: `false` when either side is NaN. -/
def oLe (a b : Option ℚ) : Bool :=
  match a, b with
  | some x, some y => decide (x ≤ y)
  | _, _ => false

/-- `a > b` on possibly-NaN values: `false` when either side is NaN. -/
def oGt (a b : Option ℚ) : Bool := oLt b a

/-- `a ≥ b` on possibly-NaN values: `false` when either side is NaN. -/
def oGe (a b : Option ℚ) : Bool := oLe b a

/-! ## TA-Lib indicators over the Close column

`talib.SMA(close, n)[i]` is the arithmetic mean of `close[i-n+1..i]`,
`NaN` for `i < n-1`.  `talib.RSI(close, n)[i]` uses Wilder smoothing:
the first defined output is at index `n` (seeded by the simple average
of the first `n` gains/losses), and `RSI = 100·avgGain/(avgGain+avgLoss)`
with the `0` convention when `avgGain + avgLoss = 0`. -/

/-- Simple moving average at index `i` (window `close[i-n+1..i]`); `none`
during the warm-up `i < n-1` or out of range. -/
def SMA (close : List ℚ) (n : ℕ) (i : ℕ) : Option ℚ :=
  if 0 < n ∧ n ≤ i + 1 ∧ i < close.length then
    some ((((List.range n).map (fun j => close.getD (i - j) 0)).sum) / n)
  else none

/-- Gain of bar `j` over bar `j-1` (0 when the close fell). -/
def gainAt (close : List ℚ) (j : ℕ) : ℚ :=
  max (close.getD j 0 - close.getD (j - 1) 0) 0

/-- Loss of bar `j` under bar `j-1` (0 when the close rose). -/
def lossAt (close : List ℚ) (j : ℕ) : ℚ :=
  max (close.getD (j - 1) 0 - close.getD j 0) 0

/-- Wilder average gain at index `n + k` for RSI period `n`: simple mean
of the first `n` gains at `k = 0`, then
`(prev·(n-1) + gain) / n` bar by bar. -/
def avgGain (close : List ℚ) (n : ℕ) : ℕ → ℚ
  | 0 => (((List.range n).map (fun j => gainAt close (j + 1))).sum) / n
  | k + 1 => (avgGain close n k * (n - 1 : ℕ) + gainAt close (n + k + 1)) / n

/-- Wilder average loss at index `n + k` for RSI period `n`. -/
def avgLoss (close : List ℚ) (n : ℕ) : ℕ → ℚ
  | 0 => (((List.range n).map (fun j => lossAt close (j + 1))).sum) / n
  | k + 1 => (avgLoss close n k * (n - 1 : ℕ) + lossAt close (n + k + 1)) / n

/-- `talib.RSI(close, n)[i]`: `none` for `i < n` or out of range,
otherwise `100·avgGain/(avgGain+avgLoss)` (`0` when the denominator is 0). -/
def RSI (close : List ℚ) (n : ℕ) (i : ℕ) : Option ℚ :=
  if 0 < n ∧ n ≤ i ∧ i < close.length then
    let ag := avgGain close n (i - n)
    let al := avgLoss close n (i - n)
    some (if ag + al = 0 then 0 else 100 * ag / (ag + al))
  else none

/-- `series.shift(1)[i]`: the previous bar's value, `NaN` at bar 0. -/
def shift1 (f : ℕ → Option ℚ) (i : ℕ) : Option ℚ :=
  if i = 0 then none else f (i - 1)

/-! ## MovingAverageStrategy (`src/strategies/moving_average_strategy.py`)

```python
buy_condition = (
    (data['MA_Fast'] > data['MA_Slow']) &
    (data['MA_Fast'].shift(1) <= data['MA_Slow'].shift(1)) &
    (data['RSI'] < rsi_oversold))
sell_condition = (
    (data['MA_Fast'] < data['MA_Slow']) &
    (data['MA_Fast'].shift(1) >= data['MA_Slow'].shift(1)) |
    (data['RSI'] > rsi_overbought))
data['Signal'] = 0
data.loc[buy_condition, 'Signal'] = 1
data.loc[sell_condition, 'Signal'] = -1
```
The second masked assignment runs after the first, so a bar satisfying
both conditions ends with `Signal = -1`. -/

/-- The buy mask of `MovingAverageStrategy.generate_signals` at bar `i`. -/
def maBuyCond (close : List ℚ) (F S R : ℕ) (oversold : ℚ) (i : ℕ) : Bool :=
  oGt (SMA close F i) (SMA close S i) &&
  oLe (shift1 (SMA close F) i) (shift1 (SMA close S) i) &&
  oLt (RSI close R i) (some oversold)

/-- The sell mask of `MovingAverageStrategy.generate_signals` at bar `i`
(`&` binds tighter than `|` in pandas, so the RSI clause stands alone). -/
def maSellCond (close : List ℚ) (F S R : ℕ) (overbought : ℚ) (i : ℕ) : Bool :=
  (oLt (SMA close F i) (SMA close S i) &&
   oGe (shift1 (SMA close F) i) (shift1 (SMA close S) i)) ||
  oGt (RSI close R i) (some overbought)

/-- Signal of bar `i`: 0, overwritten by 1 on the buy mask, then
overwritten by -1 on the sell mask (assignment order of the source). -/
def maSignal (close : List ℚ) (F S R : ℕ) (oversold overbought : ℚ)
    (i : ℕ) : ℤ :=
  if maSellCond close F S R overbought i then -1
  else if maBuyCond close F S R oversold i then 1
  else 0

/-- The whole Signal column produced by `MovingAverageStrategy`. -/
def maSignals (close : List ℚ) (F S R : ℕ) (oversold overbought : ℚ) :
    List ℤ :=
  (List.range close.length).map (maSignal close F S R oversold overbought)

/-! ## PercentageChangeStrategy
(`src/old code/strategies/percentage_change_strategy.py`)

A single pass from bar 1 onward carrying `(shares_owned, avg_buy_price)`;
`Signal[0]` stays 0.  Python's `int(...)` truncates toward zero, which on
the non-negative quantities involved is the floor. -/

/-- Carried state of `PercentageChangeStrategy.generate_signals`. -/
structure PCState where
  shares : ℕ
  avg : ℚ
deriving DecidableEq

/-- `min_price_change = 0.01` of the source. -/
def minPriceChange : ℚ := 1 / 100

/-- `max_position = 100` of the source. -/
def pcMaxPosition : ℕ := 100

/-- One loop iteration of `PercentageChangeStrategy.generate_signals`
at a bar with close `cur`, previous close `prev`. Returns the new state
and the bar's signal. -/
def pcStep (prev cur : ℚ) (st : PCState) : PCState × ℤ :=
  let change := (cur - prev) / prev
  if change < -minPriceChange then
    let toBuy := (⌊(-change) * (pcMaxPosition : ℚ)⌋).toNat
    if 0 < toBuy then
      let newShares := st.shares + toBuy
      ({ shares := newShares,
         avg := ((st.shares : ℚ) * st.avg + (toBuy : ℚ) * cur) / (newShares : ℚ) },
       1)
    else (st, 0)
  else if minPriceChange < change ∧ 0 < st.shares then
    if st.avg < cur then
      let toSell := (⌊min ((st.shares : ℚ)) (change * (st.shares : ℚ))⌋).toNat
      if 0 < toSell then ({ st with shares := st.shares - toSell }, -1)
      else (st, 0)
    else (st, 0)
  else (st, 0)

/-- Rest of the loop, bar by bar, threading the previous close and state. -/
def pcRun : ℚ → PCState → List ℚ → List ℤ
  | _, _, [] => []
  | prev, st, c :: rest =>
    let r := pcStep prev c st
    r.2 :: pcRun c r.1 rest

/-- The Signal column of `PercentageChangeStrategy` (loop starts at bar 1). -/
def pcSignals (close : List ℚ) : List ℤ :=
  match close with
  | [] => []
  | c :: rest => 0 :: pcRun c ⟨0, 0⟩ rest

/-! ## PriceActionStrategy (fixed-step averaging-in)
(`src/old code/strategies/price_action_strategy.py`)

First bar with no position always buys one unit.  While holding:
a drop of ≥ 5% from the last buy price (and position < 10) buys one more
unit; otherwise a profit of ≥ 10% over the average buy price sells
`min(position, int(profit/0.1))` units, resetting the tracked prices
only when the position reaches 0. -/

/-- Carried state of `PriceActionStrategy.generate_signals`. -/
structure PAState where
  position : ℕ
  avg : ℚ
  lastBuy : ℚ
deriving DecidableEq

/-- `drop_threshold = 0.05` of the source. -/
def paDropThreshold : ℚ := 5 / 100

/-- `profit_threshold = 0.1` of the source. -/
def paProfitThreshold : ℚ := 1 / 10

/-- `max_position = 10` of the source. -/
def paMaxPosition : ℕ := 10

/-- One loop iteration of `PriceActionStrategy.generate_signals` at a bar
with close `cur`. Returns the new state and the bar's signal. -/
def paStep (cur : ℚ) (st : PAState) : PAState × ℤ :=
  if st.position = 0 then
    ({ position := 1, avg := cur, lastBuy := cur }, 1)
  else
    let drop := (st.lastBuy - cur) / st.lastBuy
    let profit := (cur - st.avg) / st.avg
    if paDropThreshold ≤ drop ∧ st.position < paMaxPosition then
      let p := st.position + 1
      ({ position := p,
         avg := (st.avg * ((p : ℚ) - 1) + cur) / (p : ℚ),
         lastBuy := cur }, 1)
    else if paProfitThreshold ≤ profit ∧ 0 < st.position then
      let portions := min st.position (⌊profit / paProfitThreshold⌋).toNat
      if 0 < portions then
        let p := st.position - portions
        if p = 0 then ({ position := 0, avg := 0, lastBuy := 0 }, -(portions : ℤ))
        else ({ st with position := p }, -(portions : ℤ))
      else (st, 0)
    else (st, 0)

/-- The loop of `PriceActionStrategy`, bar by bar. -/
def paRun : PAState → List ℚ → List ℤ
  | _, [] => []
  | st, c :: rest =>
    let r := paStep c st
    r.2 :: paRun r.1 rest

/-- The Signal column of `PriceActionStrategy` (old code). -/
def paSignals (close : List ℚ) : List ℤ :=
  paRun ⟨0, 0, 0⟩ close

/-! ## BuyAndHoldStrategy (`src/old code/strategies/buy_hold_strategy.py`) -/

/-- The Signal column of `BuyAndHoldStrategy`: 1 at bar 0, 0 after. -/
def bhSignals (close : List ℚ) : List ℤ :=
  match close with
  | [] => []
  | _ :: rest => 1 :: rest.map (fun _ => 0)

/-! ## Execution engine signal loop (`src/backtester.py`, `CustomStrategy.next`)

```python
if current_signal == 1 and not self.position:
    self.buy()
elif current_signal == -1 and self.position:
    self.position.close()
```
`self.position` is truthy exactly when units owned ≠ 0; `buy()` opens a
library-sized position and `position.close()` liquidates all units. -/

/-- The order the signal loop issues on one bar: `buy` only on the exact
signal 1 while flat, `close` only on the exact signal -1 while holding. -/
inductive BarOrder
  | buy
  | close
  | noop
deriving DecidableEq

/-- Order decision of `CustomStrategy.next` for one bar. -/
def nextOrder (signal : ℤ) (units : ℕ) : BarOrder :=
  if signal = 1 ∧ units = 0 then .buy
  else if signal = -1 ∧ 0 < units then .close
  else .noop

/-- Units owned after the bar: `buy()` fills `buySize` units, `close()`
liquidates everything, otherwise the position is untouched. -/
def stepUnits (signal : ℤ) (buySize units : ℕ) : ℕ :=
  match nextOrder signal units with
  | .buy => buySize
  | .close => 0
  | .noop => units

/-! ## Batch error boundary (`BacktestEngine.run` + the loop in `main.py`)

The whole per-instrument pipeline body is wrapped in
`try: ... except Exception as e: return {'symbol': ..., 'error': str(e)}`,
so an instrument's pipeline is modelled as an `Except` value and `run`
as the total function matching on it. -/

/-- The success payload of a Performance Record. -/
structure Stats where
  ret : ℚ
  sharpe : ℚ
  maxDrawdown : ℚ
  winRate : ℚ
  trades : ℕ
  profitFactor : ℚ
  avgTrade : ℚ
  bestTrade : ℚ
  worstTrade : ℚ
deriving DecidableEq

/-- Performance Record: success, or the error dict `{symbol, error}`. -/
inductive PerfRecord
  | ok (symbol : String) (stats : Stats)
  | err (symbol : String) (reason : String)
deriving DecidableEq

/-- `BacktestEngine.run`: the `try/except` boundary around one
instrument's pipeline. -/
def engineRun (symbol : String) (pipeline : Except String Stats) : PerfRecord :=
  match pipeline with
  | .ok s => .ok symbol s
  | .error e => .err symbol e

/-- The batch loop of `main.py`: one engine run per instrument, results
appended in order. -/
def batchRun (instruments : List (String × Except String Stats)) :
    List PerfRecord :=
  instruments.map fun p => engineRun p.1 p.2

/-! ## Input validation (`BaseStrategy.validate_data` and the generators)

A DataFrame is modelled by its column-name list and its Close column.
The new-code generators return the input unchanged when validation
fails; the old `BuyAndHoldStrategy` raises `ValueError`. -/

/-- `required_columns` of `BaseStrategy.validate_data`. -/
def requiredColumns : List String := ["Open", "High", "Low", "Close", "Volume"]

/-- The modelled DataFrame: which columns exist, and the Close values. -/
structure Frame where
  cols : List String
  closes : List ℚ
deriving DecidableEq

/-- `BaseStrategy.validate_data`: only checks column presence, never
emptiness. -/
def validate_data (f : Frame) : Bool :=
  requiredColumns.all (fun c => f.cols.contains c)

/-- `PercentageChangeStrategy.validate_data` override: `['Close']` only. -/
def pcValidate (f : Frame) : Bool :=
  f.cols.contains "Close"

/-- What a `generate_signals` call produces for its caller. -/
inductive GenOutcome
  | signals (s : List ℤ)
  | unchanged
  | error (msg : String)
deriving DecidableEq

/-- `MovingAverageStrategy.generate_signals` at the frame level: invalid
columns (or a period talib rejects, caught by the `except` block) return
the input unchanged; otherwise the Signal column is produced. -/
def maGenerate (F S R : ℕ) (oversold overbought : ℚ) (f : Frame) :
    GenOutcome :=
  if ¬ validate_data f then .unchanged
  else if F < 2 ∨ S < 2 ∨ R < 2 then .unchanged
  else .signals (maSignals f.closes F S R oversold overbought)

/-- `PercentageChangeStrategy.generate_signals` at the frame level. -/
def pcGenerate (f : Frame) : GenOutcome :=
  if ¬ pcValidate f then .unchanged
  else .signals (pcSignals f.closes)

/-- `PriceActionStrategy.generate_signals` (old code) at the frame level. -/
def paGenerate (f : Frame) : GenOutcome :=
  if ¬ validate_data f then .unchanged
  else .signals (paSignals f.closes)

/-- `BuyAndHoldStrategy.generate_signals` at the frame level: raises
`ValueError("Invalid data format")` on a failed validation and an
`IndexError` from `iloc[0]` on an empty frame. -/
def bhGenerate (f : Frame) : GenOutcome :=
  if ¬ validate_data f then .error "Invalid data format"
  else if f.closes.isEmpty then .error "IndexError"
  else .signals (bhSignals f.closes)

/-! ## Metrics and trade log

The statistics themselves are produced by the external `backtesting`
library, which is not part of this repository; the following definitions
are modelled from the specification (§4.2–§4.3). -/

/-- Modelled from the spec: win rate % over realized trade P&Ls, `0`
when there are no trades (the library computing `Win Rate [%]` is not in
the repository). -/
def winRatePct (pnls : List ℚ) : ℚ :=
  if pnls.length = 0 then 0
  else 100 * ((pnls.filter (fun p => 0 < p)).length : ℚ) / (pnls.length : ℚ)

/-- Modelled from the spec: profit factor = gross profit / |gross loss|,
`0` when there are no losing trades (the library computing
`Profit Factor` is not in the repository). -/
def profitFactor (pnls : List ℚ) : ℚ :=
  let grossLoss := (pnls.filter (fun p => p < 0)).sum
  if grossLoss = 0 then 0
  else (pnls.filter (fun p => 0 < p)).sum / |grossLoss|

/-- Modelled from the spec: the realized trade count. -/
def tradeCount (pnls : List ℚ) : ℕ :=
  pnls.length

/-- Modelled from the spec: one bar of trade accounting — fills at the
bar close, commission `rate × notional` on both legs, a realized P&L
recorded when the position closes (the library's broker is not in the
repository). The order decision is the repository's `nextOrder`. -/
def tradeStep (commission : ℚ) (buySize : ℕ) (price : ℚ) (signal : ℤ)
    (st : ℕ × ℚ) : (ℕ × ℚ) × Option ℚ :=
  match nextOrder signal st.1 with
  | .buy => ((buySize, price), none)
  | .close =>
      ((0, 0),
       some ((price - st.2) * (st.1 : ℚ)
             - commission * st.2 * (st.1 : ℚ)
             - commission * price * (st.1 : ℚ)))
  | .noop => (st, none)

/-- Modelled from the spec: the realized-trade log of a run, folding
`tradeStep` over the bars. -/
def simTrades (commission : ℚ) (buySize : ℕ) :
    ℕ × ℚ → List (ℚ × ℤ) → List ℚ
  | _, [] => []
  | st, (p, s) :: rest =>
    let r := tradeStep commission buySize p s st
    match r.2 with
    | some pnl => pnl :: simTrades commission buySize r.1 rest
    | none => simTrades commission buySize r.1 rest

/-- Modelled from the spec: realized trades of a full run starting flat. -/
def realizedTrades (commission : ℚ) (buySize : ℕ) (closes : List ℚ)
    (signals : List ℤ) : List ℚ :=
  simTrades commission buySize (0, 0) (closes.zip signals)

example : RSI [10, 10, 10, 16] 2 3 = some 100 := by
  norm_num [RSI, avgGain, avgLoss, gainAt, lossAt, List.range_succ]

example : pcSignals [100, 94, 94] = [0, 1, 0] := by
  norm_num [pcSignals, pcRun, pcStep, minPriceChange, pcMaxPosition]

example : paSignals [100, 96, 112] = [1, 0, -1] := by
  norm_num [paSignals, paRun, paStep, paDropThreshold, paProfitThreshold,
    paMaxPosition]

example : bhSignals [100] = [1] := rfl

example : realizedTrades 0 10 [100] (bhSignals [100]) = [] := rfl

example : maSignal [10, 10, 10, 16] 2 3 2 200 50 3 = -1 := by
  norm_num [maSignal, maSellCond, maBuyCond, oLt, oLe, oGt, oGe, SMA, RSI,
    shift1, avgGain, avgLoss, gainAt, lossAt, List.range_succ]

example : maSignals [1, 2, 3] 2 6 2 30 50 = [0, 0, -1] := by
  norm_num [maSignals, maSignal, maSellCond, maBuyCond, oLt, oLe, oGt, oGe,
    SMA, RSI, shift1, avgGain, avgLoss, gainAt, lossAt, List.range_succ]

/-! ## Claims -/

/-- C1 counterexample: a sell signal of −2 while 5 units are owned
neither closes nor reduces the position — the signal loop only reacts to
the exact value −1, so the bar leaves the units unchanged. -/
theorem c1_counterexample :
    stepUnits (-2) 10 5 = 5 ∧ ¬ stepUnits (-2) 10 5 < 5 := by decide

/-- C1 (amended): per bar, the signal loop issues at most one order; a
signal of exactly −1 while holding closes the entire position (so the
sell size never exceeds the units owned), a signal of exactly +1 while
flat opens one, and every other signal/state combination — including
sell values below −1 and buy values above +1 — leaves the position
unchanged. -/
theorem c1_amended (signal : ℤ) (buySize units : ℕ) :
    (signal = -1 → 0 < units →
      stepUnits signal buySize units = 0 ∧ nextOrder signal units = .close) ∧
    (signal = 1 → units = 0 →
      stepUnits signal buySize units = buySize ∧
        nextOrder signal units = .buy) ∧
    (¬ (signal = 1 ∧ units = 0) → ¬ (signal = -1 ∧ 0 < units) →
      stepUnits signal buySize units = units ∧
        nextOrder signal units = .noop) := by
  refine ⟨fun hs hu => ?_, fun hs hu => ?_, fun h1 h2 => ?_⟩
  · subst hs
    have h : ¬ ((-1 : ℤ) = 1 ∧ units = 0) := by omega
    simp [stepUnits, nextOrder, h, hu]
  · subst hs hu
    simp [stepUnits, nextOrder]
  · simp [stepUnits, nextOrder, h1, h2]

/-- C1 amended witness at the concrete bars (−1 holding 5, +1 flat,
0 holding 5). -/
theorem c1_amended_witness :
    stepUnits (-1) 10 5 = 0 ∧ stepUnits 1 10 0 = 10 ∧
      stepUnits 0 10 5 = 5 :=
  ⟨((c1_amended (-1) 10 5).1 rfl (by decide)).1,
   ((c1_amended 1 10 0).2.1 rfl rfl).1,
   ((c1_amended 0 10 5).2.2 (by decide) (by decide)).1⟩

/-- C2: the batch produces exactly one record per instrument, and an
instrument whose pipeline raises is converted into an error record
carrying its symbol and the failure reason — it never removes or aborts
the remaining instruments. -/
theorem c2_errors_contained
    (instruments : List (String × Except String Stats)) :
    (batchRun instruments).length = instruments.length ∧
    ∀ (i : ℕ) (symbol reason : String),
      instruments[i]? = some (symbol, Except.error reason) →
      (batchRun instruments)[i]? = some (PerfRecord.err symbol reason) := by
  constructor
  · simp [batchRun]
  · intro i symbol reason h
    simp [batchRun, List.getElem?_map, h, engineRun]

/-- C2 witness: a two-instrument batch whose first pipeline raises
still yields two records, the first being the error record. -/
theorem c2_witness :
    (batchRun [("AAA", Except.error "boom"),
               ("BBB", Except.ok ⟨0, 0, 0, 0, 0, 0, 0, 0, 0⟩)]).length = 2 ∧
    (batchRun [("AAA", Except.error "boom"),
               ("BBB", Except.ok ⟨0, 0, 0, 0, 0, 0, 0, 0, 0⟩)])[0]? =
      some (PerfRecord.err "AAA" "boom") :=
  ⟨((c2_errors_contained _).1).trans rfl,
   (c2_errors_contained _).2 0 "AAA" "boom" rfl⟩

/-- C5: in both averaging-in variants, an additional buy while a
position is held updates the tracked running average buy price to the
size-weighted mean
`(old_total_size·old_avg + buy_size·fill_price) / (old_total_size + buy_size)`
(the fixed-step variant buys one unit at a time). -/
theorem c5_weighted_average_update :
    (∀ (prev cur : ℚ) (st : PCState),
       0 < st.shares →
       (cur - prev) / prev < -minPriceChange →
       0 < (⌊(-((cur - prev) / prev)) * (pcMaxPosition : ℚ)⌋).toNat →
       (pcStep prev cur st).1.avg =
         ((st.shares : ℚ) * st.avg +
            (((⌊(-((cur - prev) / prev)) * (pcMaxPosition : ℚ)⌋).toNat : ℚ)
              * cur)) /
           ((st.shares : ℚ) +
            ((⌊(-((cur - prev) / prev)) * (pcMaxPosition : ℚ)⌋).toNat : ℚ))) ∧
    (∀ (cur : ℚ) (st : PAState),
       0 < st.position →
       paDropThreshold ≤ (st.lastBuy - cur) / st.lastBuy →
       st.position < paMaxPosition →
       (paStep cur st).1.avg =
         ((st.position : ℚ) * st.avg + 1 * cur) / ((st.position : ℚ) + 1)) := by
  constructor
  · intro prev cur st hsh hdrop htb
    simp only [pcStep]
    rw [if_pos hdrop, if_pos htb]
    push_cast
    ring_nf
  · intro cur st hpos hdrop hmax
    have hne : ¬ st.position = 0 := Nat.pos_iff_ne_zero.mp hpos
    simp only [paStep]
    rw [if_neg hne, if_pos ⟨hdrop, hmax⟩]
    push_cast
    ring_nf

/-- C5 witness: a buy of 6 shares at 94 holding 10 shares at average 90
yields average 183/2; a fixed-step buy at 94 holding 2 units at average
100 yields average 98. -/
theorem c5_weighted_average_update_witness :
    (pcStep 100 94 ⟨10, 90⟩).1.avg = 183 / 2 ∧
    (paStep 94 ⟨2, 100, 100⟩).1.avg = 98 := by
  constructor
  · have h := c5_weighted_average_update.1 100 94 ⟨10, 90⟩ (by decide)
      (by norm_num [minPriceChange]) (by norm_num [pcMaxPosition])
    rw [h]
    have h6 : ((6 : ℤ)).toNat = 6 := rfl
    norm_num [pcMaxPosition, h6]
  · have h := c5_weighted_average_update.2 94 ⟨2, 100, 100⟩ (by decide)
      (by norm_num [paDropThreshold]) (by norm_num [paMaxPosition])
    rw [h]
    norm_num

/-- C6: in the fixed-step variant, a take-profit bar sells
`min(position, ⌊profit/profit_threshold⌋)` units — proportional to the
profit multiples reached, never more than the units held — and the
tracked average / last-buy prices are reset to 0 exactly when the
position fully closes, never on a partial sell. -/
theorem c6_proportional_sell (cur : ℚ) (st : PAState)
    (hpos : st.position ≠ 0)
    (hnobuy : ¬ (paDropThreshold ≤ (st.lastBuy - cur) / st.lastBuy ∧
                 st.position < paMaxPosition))
    (hprofit : paProfitThreshold ≤ (cur - st.avg) / st.avg) :
    (paStep cur st).2 =
      -(((min st.position
          (⌊((cur - st.avg) / st.avg) / paProfitThreshold⌋).toNat : ℕ) : ℤ)) ∧
    (paStep cur st).1.position =
      st.position -
        min st.position
          (⌊((cur - st.avg) / st.avg) / paProfitThreshold⌋).toNat ∧
    ((paStep cur st).1.position = 0 →
       (paStep cur st).1.avg = 0 ∧ (paStep cur st).1.lastBuy = 0) ∧
    ((paStep cur st).1.position ≠ 0 →
       (paStep cur st).1.avg = st.avg ∧
         (paStep cur st).1.lastBuy = st.lastBuy) := by
  have hfloor : (1 : ℤ) ≤ ⌊((cur - st.avg) / st.avg) / paProfitThreshold⌋ := by
    rw [Int.le_floor]
    push_cast
    rw [le_div_iff₀ (by norm_num [paProfitThreshold])]
    simpa using hprofit
  have hportions :
      0 < min st.position
        (⌊((cur - st.avg) / st.avg) / paProfitThreshold⌋).toNat := by
    rw [lt_min_iff]
    exact ⟨Nat.pos_of_ne_zero hpos, by omega⟩
  simp only [paStep]
  rw [if_neg hpos, if_neg hnobuy, if_pos ⟨hprofit, Nat.pos_of_ne_zero hpos⟩,
    if_pos hportions]
  by_cases hz :
      st.position -
        min st.position
          (⌊((cur - st.avg) / st.avg) / paProfitThreshold⌋).toNat = 0
  · rw [if_pos hz]
    refine ⟨rfl, hz.symm, fun _ => ⟨rfl, rfl⟩, fun hne => absurd rfl hne⟩
  · rw [if_neg hz]
    exact ⟨rfl, rfl, fun h0 => absurd h0 hz, fun _ => ⟨rfl, rfl⟩⟩

/-- C6 witness: at close 120 holding 3 units with average 100 (20%
profit, two 10% multiples) the bar sells 2 units, keeps 1, and the
tracked prices are not reset. -/
theorem c6_proportional_sell_witness :
    (paStep 120 ⟨3, 100, 100⟩).2 = -2 ∧
    (paStep 120 ⟨3, 100, 100⟩).1.position = 1 ∧
    (paStep 120 ⟨3, 100, 100⟩).1.avg = 100 ∧
    (paStep 120 ⟨3, 100, 100⟩).1.lastBuy = 100 := by
  have h := c6_proportional_sell 120 ⟨3, 100, 100⟩ (by decide)
    (by norm_num [paDropThreshold, paMaxPosition])
    (by norm_num [paProfitThreshold])
  have hfl : ⌊((120 - (100 : ℚ)) / 100) / paProfitThreshold⌋ = 2 := by
    rw [Int.floor_eq_iff]
    norm_num [paProfitThreshold]
  rw [hfl] at h
  obtain ⟨h1, h2, -, h4⟩ := h
  have hmin : min 3 ((2 : ℤ)).toNat = 2 := rfl
  rw [hmin] at h1 h2
  have hpos1 : (paStep 120 ⟨3, 100, 100⟩).1.position = 1 := by
    rw [h2]
    rfl
  have h4' := h4 (by rw [hpos1]; exact one_ne_zero)
  refine ⟨h1.trans (by norm_num), hpos1, h4'.1, h4'.2⟩

/-- C7 counterexample: `MovingAverageStrategy.generate` on a frame
missing the `Volume` column returns the input unchanged — silently,
with no `Signal` column and no error — and `PercentageChangeStrategy`
on an empty frame that has its required `Close` column succeeds with an
empty `Signal` column instead of failing. -/
theorem c7_counterexample :
    maGenerate 20 50 14 30 70
        ⟨["Open", "High", "Low", "Close"], [1, 2, 3]⟩ =
      GenOutcome.unchanged ∧
    pcGenerate ⟨["Close"], []⟩ = GenOutcome.signals [] := by
  exact ⟨rfl, rfl⟩

/-- C7 (amended): the generators only check column presence, never
emptiness: on a frame missing a required column the moving-average and
the two in-place price-action generators return the input unchanged
without a Signal column (no exception is raised and there is no
`InvalidInputError` anywhere); only the old Buy-and-Hold raises, with a
`ValueError`; and a frame holding the required columns but no rows is
accepted, the percentage-change generator returning an empty Signal
column. -/
theorem c7_amended :
    (∀ (F S R : ℕ) (ov ob : ℚ) (f : Frame), validate_data f = false →
        maGenerate F S R ov ob f = .unchanged) ∧
    (∀ f : Frame, validate_data f = false → paGenerate f = .unchanged) ∧
    (∀ f : Frame, pcValidate f = false → pcGenerate f = .unchanged) ∧
    (∀ f : Frame, validate_data f = false →
        bhGenerate f = .error "Invalid data format") ∧
    (∀ f : Frame, pcValidate f = true →
        pcGenerate f = .signals (pcSignals f.closes)) := by
  refine ⟨?_, ?_, ?_, ?_, ?_⟩ <;> intros <;>
    simp_all [maGenerate, paGenerate, pcGenerate, bhGenerate]

/-- C7 amended witness at concrete frames: one missing all but `Open`,
and an empty frame holding `Close`. -/
theorem c7_amended_witness :
    maGenerate 20 50 14 30 70 ⟨["Open"], [1]⟩ = .unchanged ∧
    paGenerate ⟨["Open"], [1]⟩ = .unchanged ∧
    pcGenerate ⟨["Open"], [1]⟩ = .unchanged ∧
    bhGenerate ⟨["Open"], [1]⟩ = .error "Invalid data format" ∧
    pcGenerate ⟨["Close"], []⟩ = .signals [] :=
  ⟨c7_amended.1 20 50 14 30 70 _ rfl,
   c7_amended.2.1 _ rfl,
   c7_amended.2.2.1 _ rfl,
   c7_amended.2.2.2.1 _ rfl,
   (c7_amended.2.2.2.2 ⟨["Close"], []⟩ rfl).trans rfl⟩

/-- C8: a completed run whose realized-trade log is empty reports
win-rate 0, profit-factor 0 and trade-count 0 — never an error,
an undefined value or infinity. -/
theorem c8_zero_trade_metrics (commission : ℚ) (buySize : ℕ)
    (closes : List ℚ) (signals : List ℤ)
    (h : realizedTrades commission buySize closes signals = []) :
    winRatePct (realizedTrades commission buySize closes signals) = 0 ∧
    profitFactor (realizedTrades commission buySize closes signals) = 0 ∧
    tradeCount (realizedTrades commission buySize closes signals) = 0 := by
  rw [h]
  refine ⟨rfl, ?_, rfl⟩
  simp [profitFactor]

/-- C8 witness: Buy-and-Hold on the single-bar series `[100]` realizes
no trades and all three metrics degrade to 0. -/
theorem c8_zero_trade_metrics_witness :
    realizedTrades 0 10 [100] (bhSignals [100]) = [] ∧
    winRatePct (realizedTrades 0 10 [100] (bhSignals [100])) = 0 ∧
    profitFactor (realizedTrades 0 10 [100] (bhSignals [100])) = 0 ∧
    tradeCount (realizedTrades 0 10 [100] (bhSignals [100])) = 0 :=
  ⟨rfl,
   (c8_zero_trade_metrics 0 10 [100] (bhSignals [100]) rfl).1,
   (c8_zero_trade_metrics 0 10 [100] (bhSignals [100]) rfl).2.1,
   (c8_zero_trade_metrics 0 10 [100] (bhSignals [100]) rfl).2.2⟩

/-- C10: when the buy and sell masks both hold on a bar, the emitted
signal is −1: the sell assignment is applied after the buy assignment
and overwrites it. -/
theorem c10_sell_overwrites_buy (close : List ℚ) (F S R : ℕ)
    (oversold overbought : ℚ) (i : ℕ)
    (_hbuy : maBuyCond close F S R oversold i = true)
    (hsell : maSellCond close F S R overbought i = true) :
    maSignal close F S R oversold overbought i = -1 := by
  simp [maSignal, hsell]

/-- C10 witness: on closes [10,10,10,16] with F=2, S=3, R=2,
oversold 200, overbought 50, the buy and sell masks both hold at bar 3
and the bar gets −1. -/
theorem c10_sell_overwrites_buy_witness :
    maSignal [10, 10, 10, 16] 2 3 2 200 50 3 = -1 :=
  c10_sell_overwrites_buy [10, 10, 10, 16] 2 3 2 200 50 3
    (by norm_num [maBuyCond, oLt, oLe, oGt, oGe, SMA, RSI, shift1, avgGain,
      avgLoss, gainAt, lossAt, List.range_succ])
    (by norm_num [maSellCond, oLt, oLe, oGt, oGe, SMA, RSI, shift1, avgGain,
      avgLoss, gainAt, lossAt, List.range_succ])

/-- C3 counterexample: on closes [10,10,10,16] with F=2, S=3, R=2,
oversold 200, overbought 50, bar 3 satisfies all three buy conditions —
previous fast 10 ≤ previous slow 10, current fast 13 > current slow 12,
RSI 100 < oversold 200 — yet the emitted signal is not +1 (the sell
mask `RSI > overbought` also holds and overwrites the buy with −1). -/
theorem c3_counterexample :
    SMA [10, 10, 10, 16] 2 2 = some 10 ∧
    SMA [10, 10, 10, 16] 3 2 = some 10 ∧
    SMA [10, 10, 10, 16] 2 3 = some 13 ∧
    SMA [10, 10, 10, 16] 3 3 = some 12 ∧
    RSI [10, 10, 10, 16] 2 3 = some 100 ∧
    ((10 : ℚ) ≤ 10 ∧ (12 : ℚ) < 13 ∧ (100 : ℚ) < 200) ∧
    maSignal [10, 10, 10, 16] 2 3 2 200 50 3 ≠ 1 := by
  norm_num [maSignal, maSellCond, maBuyCond, oLt, oLe, oGt, oGe, SMA, RSI,
    shift1, avgGain, avgLoss, gainAt, lossAt, List.range_succ]

/-- C3 (amended): the strategy emits +1 at bar `i` exactly when the
three buy conditions hold — previous-bar fast ≤ slow (non-strict),
current-bar fast > slow (strict), RSI < oversold, NaN comparisons being
false — and additionally the sell mask does not hold on that bar
(otherwise the later sell assignment overwrites the buy). -/
theorem c3_amended (close : List ℚ) (F S R : ℕ) (oversold overbought : ℚ)
    (i : ℕ) :
    maSignal close F S R oversold overbought i = 1 ↔
      oLe (shift1 (SMA close F) i) (shift1 (SMA close S) i) = true ∧
      oGt (SMA close F i) (SMA close S i) = true ∧
      oLt (RSI close R i) (some oversold) = true ∧
      maSellCond close F S R overbought i = false := by
  constructor
  · intro h
    by_cases hs : maSellCond close F S R overbought i
    · simp [maSignal, hs] at h
    · by_cases hb : maBuyCond close F S R oversold i
      · have hb' := hb
        simp only [maBuyCond, Bool.and_eq_true] at hb'
        exact ⟨hb'.1.2, hb'.1.1, hb'.2, by simpa using hs⟩
      · simp [maSignal, hs, hb] at h
  · rintro ⟨h1, h2, h3, h4⟩
    have hb : maBuyCond close F S R oversold i = true := by
      simp only [maBuyCond, Bool.and_eq_true]
      exact ⟨⟨h2, h1⟩, h3⟩
    simp [maSignal, h4, hb]

/-! Helper lemmas tracing which bars can carry a defined indicator. -/

lemma oLt_isSome {a b : Option ℚ} (h : oLt a b = true) :
    a.isSome ∧ b.isSome := by
  cases a <;> cases b <;> simp [oLt] at h ⊢

lemma oLe_isSome {a b : Option ℚ} (h : oLe a b = true) :
    a.isSome ∧ b.isSome := by
  cases a <;> cases b <;> simp [oLe] at h ⊢

lemma SMA_isSome {close : List ℚ} {n i : ℕ}
    (h : (SMA close n i).isSome) :
    0 < n ∧ n ≤ i + 1 ∧ i < close.length := by
  by_contra hc
  rw [SMA, if_neg hc] at h
  simp at h

lemma RSI_isSome {close : List ℚ} {n i : ℕ}
    (h : (RSI close n i).isSome) :
    0 < n ∧ n ≤ i ∧ i < close.length := by
  by_contra hc
  rw [RSI, if_neg hc] at h
  simp at h

lemma shift1_isSome {f : ℕ → Option ℚ} {i : ℕ}
    (h : (shift1 f i).isSome) : i ≠ 0 ∧ (f (i - 1)).isSome := by
  by_cases h0 : i = 0
  · rw [shift1, if_pos h0] at h
    simp at h
  · rw [shift1, if_neg h0] at h
    exact ⟨h0, h⟩

/-- A bar satisfying the buy mask lies at or past `max(max F S) R`. -/
lemma maBuyCond_warmup {close : List ℚ} {F S R : ℕ} {oversold : ℚ}
    {i : ℕ} (h : maBuyCond close F S R oversold i = true) :
    max (max F S) R ≤ i := by
  simp only [maBuyCond, Bool.and_eq_true] at h
  obtain ⟨⟨hgt, hle⟩, hrsi⟩ := h
  obtain ⟨hfp, hsp⟩ := oLe_isSome hle
  obtain ⟨hi0, hfp'⟩ := shift1_isSome hfp
  obtain ⟨-, hF, -⟩ := SMA_isSome hfp'
  obtain ⟨-, hsp'⟩ := shift1_isSome hsp
  obtain ⟨-, hS, -⟩ := SMA_isSome hsp'
  obtain ⟨hr, -⟩ := oLt_isSome hrsi
  obtain ⟨-, hR, -⟩ := RSI_isSome hr
  omega

/-- A bar satisfying the sell mask lies at or past `max F S`, or at or
past `R` through the RSI-overbought clause. -/
lemma maSellCond_warmup {close : List ℚ} {F S R : ℕ} {overbought : ℚ}
    {i : ℕ} (h : maSellCond close F S R overbought i = true) :
    max F S ≤ i ∨ R ≤ i := by
  simp only [maSellCond, Bool.or_eq_true, Bool.and_eq_true] at h
  rcases h with ⟨hlt, hge⟩ | hrsi
  · left
    obtain ⟨hsp, hfp⟩ := oLe_isSome hge
    obtain ⟨hi0, hfp'⟩ := shift1_isSome hfp
    obtain ⟨-, hF, -⟩ := SMA_isSome hfp'
    obtain ⟨-, hsp'⟩ := shift1_isSome hsp
    obtain ⟨-, hS, -⟩ := SMA_isSome hsp'
    omega
  · right
    obtain ⟨-, hr⟩ := oLt_isSome hrsi
    obtain ⟨-, hR, -⟩ := RSI_isSome hr
    omega

/-- C4 counterexample: with F=2, S=6, R=2, overbought 50 on the rising
closes [1,2,3], bar 2 lies before the warm-up length
max(F,S,R) = 6 yet carries the sell signal −1 (RSI is already defined
from bar R = 2 on and exceeds the overbought threshold). -/
theorem c4_counterexample :
    2 < max (max 2 6) 2 ∧ maSignal [1, 2, 3] 2 6 2 30 50 2 = -1 := by
  refine ⟨by decide, ?_⟩
  norm_num [maSignal, maSellCond, maBuyCond, oLt, oLe, oGt, oGe, SMA, RSI,
    shift1, avgGain, avgLoss, gainAt, lossAt, List.range_succ]

/-- C4 (amended): no buy signal is ever emitted before bar
`max(max F S) R`; the guarantee of signal 0 however only holds before
bar `min (max F S) R`, because the RSI-overbought sell clause can fire
from bar `R` on, before the moving averages are defined. -/
theorem c4_amended (close : List ℚ) (F S R : ℕ) (oversold overbought : ℚ)
    (i : ℕ) :
    (i < max (max F S) R →
       maSignal close F S R oversold overbought i ≠ 1) ∧
    (i < min (max F S) R →
       maSignal close F S R oversold overbought i = 0) := by
  constructor
  · intro hi h1
    by_cases hs : maSellCond close F S R overbought i
    · simp [maSignal, hs] at h1
    · by_cases hb : maBuyCond close F S R oversold i
      · exact absurd (maBuyCond_warmup hb) (by omega)
      · simp [maSignal, hs, hb] at h1
  · intro hi
    have hs : ¬ maSellCond close F S R overbought i = true := by
      intro h
      rcases maSellCond_warmup h with h' | h' <;> omega
    have hb : ¬ maBuyCond close F S R oversold i = true := by
      intro h
      have := maBuyCond_warmup h
      omega
    simp [maSignal, hs, hb]

/-- C4 amended witness: with the default parameters F=20, S=50, R=14,
bar 2 of [1,2,3] is before both bounds and carries signal 0. -/
theorem c4_amended_witness :
    maSignal [1, 2, 3] 20 50 14 30 70 2 ≠ 1 ∧
    maSignal [1, 2, 3] 20 50 14 30 70 2 = 0 :=
  ⟨(c4_amended [1, 2, 3] 20 50 14 30 70 2).1 (by decide),
   (c4_amended [1, 2, 3] 20 50 14 30 70 2).2 (by decide)⟩

/-! Prefix stability: every indicator and signal at bar `i` only reads
closes at positions ≤ `i`, so truncating the series to its first `k`
bars truncates the signal sequence. -/

lemma getD_take (l : List ℚ) : ∀ (k j : ℕ), j < k →
    (l.take k).getD j 0 = l.getD j 0 := by
  induction l with
  | nil =>
    intro k j h
    simp
  | cons c rest ih =>
    intro k j h
    cases k with
    | zero => omega
    | succ k =>
      cases j with
      | zero => simp
      | succ j =>
        simp only [List.take_succ_cons, List.getD_cons_succ]
        exact ih k j (by omega)

lemma SMA_take {close : List ℚ} {k n i : ℕ} (hik : i < k) :
    SMA (close.take k) n i = SMA close n i := by
  by_cases hc : 0 < n ∧ n ≤ i + 1 ∧ i < close.length
  · have hc' : 0 < n ∧ n ≤ i + 1 ∧ i < (close.take k).length := by
      refine ⟨hc.1, hc.2.1, ?_⟩
      rw [List.length_take]
      exact lt_min hik hc.2.2
    rw [SMA, SMA, if_pos hc', if_pos hc]
    have hmap : (List.range n).map (fun j => (close.take k).getD (i - j) 0) =
        (List.range n).map (fun j => close.getD (i - j) 0) := by
      apply List.map_congr_left
      intro j hj
      exact getD_take close k (i - j) (by omega)
    rw [hmap]
  · have hc' : ¬ (0 < n ∧ n ≤ i + 1 ∧ i < (close.take k).length) := by
      intro h
      have := h.2.2
      rw [List.length_take] at this
      exact hc ⟨h.1, h.2.1, by omega⟩
    rw [SMA, SMA, if_neg hc', if_neg hc]

lemma gainAt_take {close : List ℚ} {k j : ℕ} (hj : j < k) :
    gainAt (close.take k) j = gainAt close j := by
  unfold gainAt
  rw [getD_take close k j hj, getD_take close k (j - 1) (by omega)]

lemma lossAt_take {close : List ℚ} {k j : ℕ} (hj : j < k) :
    lossAt (close.take k) j = lossAt close j := by
  unfold lossAt
  rw [getD_take close k j hj, getD_take close k (j - 1) (by omega)]

lemma avgGain_take {close : List ℚ} {k n : ℕ} :
    ∀ m, n + m < k → avgGain (close.take k) n m = avgGain close n m := by
  intro m
  induction m with
  | zero =>
    intro hm
    simp only [avgGain]
    have hmap : (List.range n).map (fun j => gainAt (close.take k) (j + 1)) =
        (List.range n).map (fun j => gainAt close (j + 1)) := by
      apply List.map_congr_left
      intro j hj
      have := List.mem_range.mp hj
      exact gainAt_take (by omega)
    rw [hmap]
  | succ m ih =>
    intro hm
    simp only [avgGain]
    rw [ih (by omega), gainAt_take (by omega)]

lemma avgLoss_take {close : List ℚ} {k n : ℕ} :
    ∀ m, n + m < k → avgLoss (close.take k) n m = avgLoss close n m := by
  intro m
  induction m with
  | zero =>
    intro hm
    simp only [avgLoss]
    have hmap : (List.range n).map (fun j => lossAt (close.take k) (j + 1)) =
        (List.range n).map (fun j => lossAt close (j + 1)) := by
      apply List.map_congr_left
      intro j hj
      have := List.mem_range.mp hj
      exact lossAt_take (by omega)
    rw [hmap]
  | succ m ih =>
    intro hm
    simp only [avgLoss]
    rw [ih (by omega), lossAt_take (by omega)]

lemma RSI_take {close : List ℚ} {k n i : ℕ} (hik : i < k) :
    RSI (close.take k) n i = RSI close n i := by
  by_cases hc : 0 < n ∧ n ≤ i ∧ i < close.length
  · have hc' : 0 < n ∧ n ≤ i ∧ i < (close.take k).length := by
      refine ⟨hc.1, hc.2.1, ?_⟩
      rw [List.length_take]
      exact lt_min hik hc.2.2
    rw [RSI, RSI, if_pos hc', if_pos hc]
    rw [avgGain_take (i - n) (by omega), avgLoss_take (i - n) (by omega)]
  · have hc' : ¬ (0 < n ∧ n ≤ i ∧ i < (close.take k).length) := by
      intro h
      have := h.2.2
      rw [List.length_take] at this
      exact hc ⟨h.1, h.2.1, by omega⟩
    rw [RSI, RSI, if_neg hc', if_neg hc]

lemma shift1_SMA_take {close : List ℚ} {k n i : ℕ} (hik : i < k) :
    shift1 (SMA (close.take k) n) i = shift1 (SMA close n) i := by
  unfold shift1
  by_cases h0 : i = 0
  · rw [if_pos h0, if_pos h0]
  · rw [if_neg h0, if_neg h0, SMA_take (by omega)]

lemma maBuyCond_take {close : List ℚ} {k F S R : ℕ} {ov : ℚ} {i : ℕ}
    (hik : i < k) :
    maBuyCond (close.take k) F S R ov i = maBuyCond close F S R ov i := by
  unfold maBuyCond oGt
  rw [SMA_take hik, SMA_take hik, shift1_SMA_take hik, shift1_SMA_take hik,
    RSI_take hik]

lemma maSellCond_take {close : List ℚ} {k F S R : ℕ} {ob : ℚ} {i : ℕ}
    (hik : i < k) :
    maSellCond (close.take k) F S R ob i = maSellCond close F S R ob i := by
  unfold maSellCond oGt oGe
  rw [SMA_take hik, SMA_take hik, shift1_SMA_take hik, shift1_SMA_take hik,
    RSI_take hik]

lemma maSignal_take {close : List ℚ} {k F S R : ℕ} {ov ob : ℚ} {i : ℕ}
    (hik : i < k) :
    maSignal (close.take k) F S R ov ob i = maSignal close F S R ov ob i := by
  unfold maSignal
  rw [maSellCond_take hik, maBuyCond_take hik]

lemma maSignals_take (close : List ℚ) (k F S R : ℕ) (ov ob : ℚ) :
    maSignals (close.take k) F S R ov ob =
      (maSignals close F S R ov ob).take k := by
  unfold maSignals
  rw [← List.map_take, List.take_range, List.length_take]
  apply List.map_congr_left
  intro j hj
  have := List.mem_range.mp hj
  exact maSignal_take (by omega)

lemma bhSignals_take (close : List ℚ) (k : ℕ) :
    bhSignals (close.take k) = (bhSignals close).take k := by
  cases close with
  | nil => simp [bhSignals]
  | cons c rest =>
    cases k with
    | zero => simp [bhSignals]
    | succ k => simp [bhSignals, List.map_take]

lemma pcRun_take : ∀ (l : List ℚ) (prev : ℚ) (st : PCState) (k : ℕ),
    pcRun prev st (l.take k) = (pcRun prev st l).take k := by
  intro l
  induction l with
  | nil =>
    intro prev st k
    simp [pcRun]
  | cons c rest ih =>
    intro prev st k
    cases k with
    | zero => simp [pcRun]
    | succ k =>
      simp only [List.take_succ_cons, pcRun]
      rw [ih]

lemma paRun_take : ∀ (l : List ℚ) (st : PAState) (k : ℕ),
    paRun st (l.take k) = (paRun st l).take k := by
  intro l
  induction l with
  | nil =>
    intro st k
    simp [paRun]
  | cons c rest ih =>
    intro st k
    cases k with
    | zero => simp [paRun]
    | succ k =>
      simp only [List.take_succ_cons, paRun]
      rw [ih]

/-- C9: for all four strategy variants, the signal sequence of the
series truncated to its first `k` bars is the truncation of the full
signal sequence — every signal at a position below `k` is unchanged, so
no strategy looks ahead of the current bar. -/
theorem c9_no_lookahead (close : List ℚ) (k F S R : ℕ)
    (oversold overbought : ℚ) :
    bhSignals (close.take k) = (bhSignals close).take k ∧
    pcSignals (close.take k) = (pcSignals close).take k ∧
    paSignals (close.take k) = (paSignals close).take k ∧
    maSignals (close.take k) F S R oversold overbought =
      (maSignals close F S R oversold overbought).take k := by
  refine ⟨bhSignals_take close k, ?_, ?_,
    maSignals_take close k F S R oversold overbought⟩
  · cases close with
    | nil => simp [pcSignals]
    | cons c rest =>
      cases k with
      | zero => simp [pcSignals]
      | succ k =>
        simp only [List.take_succ_cons, pcSignals]
        rw [pcRun_take]
  · unfold paSignals
    rw [paRun_take]

end Backtesting
